import Mathlib

/-!
Shallow embedding of the jpparse grammar-fingerprint core
(src/jpparse/types/fugashi_wrap.py and src/jpparse/parsing/parsing.py).

Strings are Lean `String`s; Python's codepoint-lexicographic string
comparison is modelled by an explicit codepoint comparison below.
NumPy matrices are embedded as `List (List ℚ)` (exact arithmetic; the
float16 storage cast in `parse_line` is exact on all values these
claims involve: 0, 1, and halves).
-/

set_option maxRecDepth 40000

namespace JpParse

/-! ### Canonical ordering (Python `sorted` over member values) -/

/-- Codepoint-lexicographic comparison on char lists, matching Python's
string comparison. -/
def charListLe : List Char → List Char → Bool
  | [], _ => true
  | _a :: _as, [] => false
  | a :: as, b :: bs =>
      if a.toNat < b.toNat then true
      else if b.toNat < a.toNat then false
      else charListLe as bs

/-- Codepoint-lexicographic comparison on strings, as Python's `sorted` uses. -/
def strLe (a b : String) : Prop := charListLe a.data b.data = true

instance : DecidableRel strLe :=
  fun a b => inferInstanceAs (Decidable (charListLe a.data b.data = true))

/-- `sorted(list(set(members)))`: the canonical one-hot order used by the
enums whose `get_onehot_order` sorts the member set. -/
def canonicalOrder (members : List String) : List String :=
  List.insertionSort strLe members.dedup

/-! ### Enum member values, in declaration order -/

/-- The raw enum member values of `UnidicPos1`, in declaration order. -/
def pos1Members : List String :=
  ["名詞", "補助記号", "助詞", "動詞", "助動詞", "接尾辞", "接頭辞", "感動詞",
   "副詞", "形容詞", "形状詞", "空白", "記号", "接続詞", "代名詞", "連体詞", "その他"]

/-- The raw enum member values of `UnidicPos2`, in declaration order. -/
def pos2Members : List String :=
  ["普通名詞", "固有名詞", "文字", "格助詞", "副助詞", "助動詞語幹", "括弧開", "括弧閉",
   "数詞", "フィラー", "係助詞", "終助詞", "非自立可能", "名詞的", "句点", "タリ",
   "読点", "接続助詞", "一般", "動詞的", "形容詞的", "形状詞的", "準体助詞", "ＡＡ", "その他"]

/-- The raw enum member values of `UnidicPos3`, in declaration order. -/
def pos3Members : List String :=
  ["一般", "地名", "人名", "助数詞", "助数詞可能", "形状詞可能", "副詞可能",
   "サ変可能", "サ変形状詞可能", "顔文字", "その他"]

/-- The raw enum member values of `UnidicPos4`, in declaration order. -/
def pos4Members : List String :=
  ["国", "名", "姓", "一般", "その他"]

/-- The raw enum member values of `UnidicCType`, in declaration order. -/
def cTypeMembers : List String :=
  ["カ行変格", "サ行変格",
   "上一段-ア行", "上一段-カ行", "上一段-ガ行", "上一段-ザ行", "上一段-タ行",
   "上一段-ナ行", "上一段-ハ行", "上一段-バ行", "上一段-マ行", "上一段-ラ行",
   "下一段-ア行", "下一段-カ行", "下一段-ガ行", "下一段-サ行", "下一段-ザ行",
   "下一段-タ行", "下一段-ダ行", "下一段-ナ行", "下一段-ハ行", "下一段-バ行",
   "下一段-マ行", "下一段-ラ行",
   "五段-カ行", "五段-ガ行", "五段-サ行", "五段-タ行", "五段-ナ行", "五段-バ行",
   "五段-マ行", "五段-ラ行", "五段-ワア行",
   "助動詞-ジャ", "助動詞-タ", "助動詞-タイ", "助動詞-ダ", "助動詞-ドス",
   "助動詞-デス", "助動詞-ナイ", "助動詞-ナンダ", "助動詞-ヌ", "助動詞-マイ",
   "助動詞-マス", "助動詞-ヤ", "助動詞-ラシイ", "助動詞-レル", "助動詞-ヒン",
   "助動詞-ヘン", "助動詞-ヤン", "助動詞-ンス",
   "形容詞",
   "文語サ行変格", "文語ラ行変格",
   "文語下二段-ラ行", "文語下二段-ア行", "文語下二段-サ行", "文語下二段-ダ行",
   "文語助動詞-キ", "文語助動詞-ゴトシ", "文語助動詞-ズ", "文語助動詞-タリ-完了",
   "文語助動詞-タリ-断定", "文語助動詞-ナリ-断定", "文語助動詞-ベシ", "文語助動詞-ム",
   "文語助動詞-リ", "文語助動詞-ケリ", "文語助動詞-マジ",
   "文語四段-ハ行", "文語四段-サ行", "文語四段-ラ行", "文語四段-カ行", "文語四段-タ行",
   "文語四段-バ行", "文語四段-マ行",
   "文語形容詞-ク", "文語形容詞-シク",
   "無変化型", "特殊型",
   "その他"]

/-- The raw enum member values of `UnidicCForm`, in declaration order. -/
def cFormMembers : List String :=
  ["仮定形-一般", "仮定形-融合",
   "已然形-一般", "已然形-補助",
   "命令形",
   "意志推量形",
   "未然形-サ", "未然形-セ", "未然形-一般", "未然形-撥音便", "未然形-補助",
   "終止形-一般", "終止形-促音便", "終止形-撥音便", "終止形-補助", "終止形-融合",
   "語幹-サ", "語幹-一般",
   "連体形-一般", "連体形-撥音便", "連体形-省略", "連体形-補助", "連体形-イ音便",
   "連用形-イ音便", "連用形-ウ音便", "連用形-ニ", "連用形-ト", "連用形-一般",
   "連用形-撥音便", "連用形-促音便", "連用形-省略", "連用形-補助", "連用形-融合",
   "ク語法",
   "その他"]

/-- The raw enum member values of `UnidicGoshu`, in declaration order. -/
def goshuMembers : List String :=
  ["和", "固", "漢", "外", "混", "記号", "不明", "その他"]

/-- The raw enum member values of `UnidicType`, in declaration order. -/
def typeMembers : List String :=
  ["体", "係助", "補助", "国", "格助", "助動", "用", "固有名", "人名", "地名",
   "記号", "数", "準助", "接助", "接尾用", "接尾相", "接尾体", "副助", "助数",
   "名", "姓", "接頭", "終助", "相", "他"]

/-! ### One-hot orders (`get_onehot_order`) -/

/-- `UnidicPos1.get_onehot_order`: sorted set of member values. -/
def pos1Order : List String := canonicalOrder pos1Members

/-- `UnidicPos2.get_onehot_order`: sorted set of member values. -/
def pos2Order : List String := canonicalOrder pos2Members

/-- `UnidicPos3.get_onehot_order`: an explicit curated list. -/
def pos3Order : List String := pos3Members

/-- `UnidicPos4.get_onehot_order`: an explicit curated list. -/
def pos4Order : List String := pos4Members

/-- `UnidicCType.get_onehot_order`: sorted set of member values. -/
def cTypeOrder : List String := canonicalOrder cTypeMembers

/-- `UnidicCForm.get_onehot_order`: sorted set of member values. -/
def cFormOrder : List String := canonicalOrder cFormMembers

/-- `UnidicGoshu.get_onehot_order`: sorted set of member values. -/
def goshuOrder : List String := canonicalOrder goshuMembers

/-- `UnidicType.get_onehot_order`: sorted set of member values. -/
def typeOrder : List String := canonicalOrder typeMembers

/-! ### Field-level classification (`UnidicField.from_fugashi`) -/

/-- `UnidicField.from_fugashi(field, analysis_mode)` for an enum subclass:
the sentinel `"*"` and `None` yield `(None, None)`; a member value yields
`(value, None)`; anything else raises `ValueError` in strict mode and
yields `(None, field)` when `analysis_mode` is set.  Exceptions are
embedded as `Except.error` carrying the message string. -/
def UnidicField.from_fugashi (clsName : String) (members : List String)
    (field : Option String) (analysis_mode : Bool) :
    Except String (Option String × Option String) :=
  match field with
  | none => .ok (none, none)
  | some f =>
      if f = "*" then .ok (none, none)
      else if f ∈ members then .ok (some f, none)
      else if analysis_mode then .ok (none, some f)
      else .error ("Invalid value for " ++ clsName ++ ": " ++ f)

/-- The total field classifier used on the tolerant path
(`from_fugashi` with `analysis_mode=True` never raises). -/
def classifyT (members : List String) (field : Option String) :
    Option String × Option String :=
  match field with
  | none => (none, none)
  | some f =>
      if f = "*" then (none, none)
      else if f ∈ members then (some f, none)
      else (none, some f)

/-- `UnidicGeneralString.from_fugashi`: `str(field)` never raises, so both
modes agree and no unmatched remainder is ever produced. -/
def UnidicGeneralString.from_fugashi (field : Option String) :
    Option String × Option String :=
  match field with
  | none => (none, none)
  | some f => if f = "*" then (none, none) else (some f, none)

/-- `field.to_onehot()`: a vector over the canonical order with a single 1
at `order.index(value)`. -/
def field_to_onehot (order : List String) (v : String) : List ℚ :=
  (List.range order.length).map (fun i => if List.indexOf v order = i then 1 else 0)

/-! ### The 29-field feature record -/

/-- The raw per-word output of the external tokenizer: 29 named fields,
each a string or absent (`None`), plus the two integer ids.  `lemma` is
spelled `lemma_` because `lemma` is a Lean keyword. -/
structure FugashiFeature where
  pos1 : Option String
  pos2 : Option String
  pos3 : Option String
  pos4 : Option String
  cType : Option String
  cForm : Option String
  lForm : Option String
  lemma_ : Option String
  orth : Option String
  pron : Option String
  orthBase : Option String
  pronBase : Option String
  goshu : Option String
  iType : Option String
  iForm : Option String
  fType : Option String
  fForm : Option String
  iConType : Option String
  fConType : Option String
  type : Option String
  kana : Option String
  kanaBase : Option String
  form : Option String
  formBase : Option String
  aType : Option String
  aConType : Option String
  aModType : Option String
  lid : Option Int
  lemma_id : Option Int
deriving DecidableEq, Repr

/-- `UnidicFeatures29`: the validated record.  Classifiable fields hold a
member value or `None`; plain string fields are non-optional (pydantic
rejects `None` for them); general-string fields are optional. -/
structure UnidicFeatures29 where
  pos1 : Option String
  pos2 : Option String
  pos3 : Option String
  pos4 : Option String
  cType : Option String
  cForm : Option String
  lForm : String
  lemma_ : String
  orth : String
  pron : String
  orthBase : String
  pronBase : String
  goshu : Option String
  iType : Option String
  iForm : Option String
  fType : Option String
  fForm : Option String
  iConType : Option String
  fConType : Option String
  type : Option String
  kana : String
  kanaBase : String
  form : String
  formBase : String
  aType : String
  aConType : String
  aModType : Option String
  lid : Int
  lemma_id : Int
deriving DecidableEq, Repr

/-- The analysis ledger `analysis_dict: dict[str, set[str]]`, observed
through lookup with default `set()`: a map from field name to the set of
raw values that failed classification. -/
def Ledger : Type := String → Finset String

/-- A fresh ledger (`{}`): every field name maps to the empty set. -/
def emptyLedger : Ledger := fun _ => ∅

/-- `analysis_dict[name] = analysis_dict.get(name, set()) | {raw_field}`,
executed only when `raw_field is not None`. -/
def mergeLedger (d : Ledger) (name : String) : Option String → Ledger
  | none => d
  | some raw => fun n => if n = name then d name ∪ {raw} else d n

/-- Strict-path record construction
(`UnidicFeatures29.from_fugashi` with `analysis_dict=None`): each
classifiable field goes through strict `from_fugashi` (the first
unmatched value raises), absent plain string fields are replaced by `""`
and absent ids by `0`. -/
def UnidicFeatures29.from_fugashi_strict (f : FugashiFeature) :
    Except String UnidicFeatures29 := do
  let p1 ← UnidicField.from_fugashi "UnidicPos1" pos1Members f.pos1 false
  let p2 ← UnidicField.from_fugashi "UnidicPos2" pos2Members f.pos2 false
  let p3 ← UnidicField.from_fugashi "UnidicPos3" pos3Members f.pos3 false
  let p4 ← UnidicField.from_fugashi "UnidicPos4" pos4Members f.pos4 false
  let ct ← UnidicField.from_fugashi "UnidicCType" cTypeMembers f.cType false
  let cf ← UnidicField.from_fugashi "UnidicCForm" cFormMembers f.cForm false
  let gs ← UnidicField.from_fugashi "UnidicGoshu" goshuMembers f.goshu false
  let tp ← UnidicField.from_fugashi "UnidicType" typeMembers f.type false
  pure {
    pos1 := p1.1, pos2 := p2.1, pos3 := p3.1, pos4 := p4.1,
    cType := ct.1, cForm := cf.1,
    lForm := f.lForm.getD "", lemma_ := f.lemma_.getD "",
    orth := f.orth.getD "", pron := f.pron.getD "",
    orthBase := f.orthBase.getD "", pronBase := f.pronBase.getD "",
    goshu := gs.1,
    iType := (UnidicGeneralString.from_fugashi f.iType).1,
    iForm := (UnidicGeneralString.from_fugashi f.iForm).1,
    fType := (UnidicGeneralString.from_fugashi f.fType).1,
    fForm := (UnidicGeneralString.from_fugashi f.fForm).1,
    iConType := (UnidicGeneralString.from_fugashi f.iConType).1,
    fConType := (UnidicGeneralString.from_fugashi f.fConType).1,
    type := tp.1,
    kana := f.kana.getD "", kanaBase := f.kanaBase.getD "",
    form := f.form.getD "", formBase := f.formBase.getD "",
    aType := f.aType.getD "", aConType := f.aConType.getD "",
    aModType := (UnidicGeneralString.from_fugashi f.aModType).1,
    lid := f.lid.getD 0, lemma_id := f.lemma_id.getD 0 }

/-- The ledger updates performed by the tolerant path of
`UnidicFeatures29.from_fugashi`: one `mergeLedger` per classified field,
in the source's field order (the field classifiers are pure, so their
unmatched remainders are written here exactly as in the source's
interleaved statements). -/
def tolerantLedger (f : FugashiFeature) (d : Ledger) : Ledger :=
  let d := mergeLedger d "pos1" (classifyT pos1Members f.pos1).2
  let d := mergeLedger d "pos2" (classifyT pos2Members f.pos2).2
  let d := mergeLedger d "pos3" (classifyT pos3Members f.pos3).2
  let d := mergeLedger d "pos4" (classifyT pos4Members f.pos4).2
  let d := mergeLedger d "cType" (classifyT cTypeMembers f.cType).2
  let d := mergeLedger d "cForm" (classifyT cFormMembers f.cForm).2
  let d := mergeLedger d "goshu" (classifyT goshuMembers f.goshu).2
  let d := mergeLedger d "iType" (UnidicGeneralString.from_fugashi f.iType).2
  let d := mergeLedger d "iForm" (UnidicGeneralString.from_fugashi f.iForm).2
  let d := mergeLedger d "fType" (UnidicGeneralString.from_fugashi f.fType).2
  let d := mergeLedger d "fForm" (UnidicGeneralString.from_fugashi f.fForm).2
  let d := mergeLedger d "iConType" (UnidicGeneralString.from_fugashi f.iConType).2
  let d := mergeLedger d "fConType" (UnidicGeneralString.from_fugashi f.fConType).2
  let d := mergeLedger d "type" (classifyT typeMembers f.type).2
  let d := mergeLedger d "aModType" (UnidicGeneralString.from_fugashi f.aModType).2
  d

/-- The `cls_dict` assembly plus the final `cls(**cls_dict)` validation of
the tolerant path: classifiable fields take the analysis-mode classifier's
value, plain string and id fields are passed through unsubstituted, and
pydantic's `ValidationError` (caught and turned into `None`) occurs
exactly when a required non-optional field — one of the 12 plain strings
or the 2 ids — is `None`; this is embedded as the `Option` bind chain
below. -/
def tolerantRecord (f : FugashiFeature) : Option UnidicFeatures29 :=
  f.lForm.bind fun vLF =>
  f.lemma_.bind fun vLM =>
  f.orth.bind fun vOR =>
  f.pron.bind fun vPR =>
  f.orthBase.bind fun vOB =>
  f.pronBase.bind fun vPB =>
  f.kana.bind fun vKA =>
  f.kanaBase.bind fun vKB =>
  f.form.bind fun vFO =>
  f.formBase.bind fun vFB =>
  f.aType.bind fun vAT =>
  f.aConType.bind fun vAC =>
  f.lid.bind fun vLI =>
  f.lemma_id.bind fun vLID =>
  some {
    pos1 := (classifyT pos1Members f.pos1).1,
    pos2 := (classifyT pos2Members f.pos2).1,
    pos3 := (classifyT pos3Members f.pos3).1,
    pos4 := (classifyT pos4Members f.pos4).1,
    cType := (classifyT cTypeMembers f.cType).1,
    cForm := (classifyT cFormMembers f.cForm).1,
    lForm := vLF, lemma_ := vLM, orth := vOR, pron := vPR,
    orthBase := vOB, pronBase := vPB,
    goshu := (classifyT goshuMembers f.goshu).1,
    iType := (UnidicGeneralString.from_fugashi f.iType).1,
    iForm := (UnidicGeneralString.from_fugashi f.iForm).1,
    fType := (UnidicGeneralString.from_fugashi f.fType).1,
    fForm := (UnidicGeneralString.from_fugashi f.fForm).1,
    iConType := (UnidicGeneralString.from_fugashi f.iConType).1,
    fConType := (UnidicGeneralString.from_fugashi f.fConType).1,
    type := (classifyT typeMembers f.type).1,
    kana := vKA, kanaBase := vKB, form := vFO, formBase := vFB,
    aType := vAT, aConType := vAC,
    aModType := (UnidicGeneralString.from_fugashi f.aModType).1,
    lid := vLI, lemma_id := vLID }

/-- Tolerant-path record construction
(`UnidicFeatures29.from_fugashi` with an `analysis_dict`): the returned
record (or `None` on validation failure) together with the updated
ledger.  The field classifiers are pure and never read the ledger, so
the source's interleaved mutation factors into `tolerantRecord` and
`tolerantLedger`. -/
def UnidicFeatures29.from_fugashi_tolerant (f : FugashiFeature) (d : Ledger) :
    Option UnidicFeatures29 × Ledger :=
  (tolerantRecord f, tolerantLedger f d)

/-! ### The one-hot matrix encoder (`UnidicFeatures29.to_onehot`) -/

/-- Matrices are lists of rows of exact rationals. -/
abbrev Mat := List (List ℚ)

/-- One row of the encoder: the field's one-hot vector, or an all-zero row
of the field's category count when the field is `None`. -/
def fieldRow (order : List String) : Option String → List ℚ
  | none => List.replicate order.length 0
  | some v => field_to_onehot order v

/-- `max_length`: the running maximum of the selected fields' category
counts, as accumulated in `to_onehot`. -/
def maxFieldLength : ℕ :=
  [pos1Order.length, pos2Order.length, pos3Order.length, pos4Order.length,
   cTypeOrder.length, cFormOrder.length, goshuOrder.length,
   typeOrder.length].foldl Nat.max 0

/-- Right-pad a row with zeros to width `w` (`np.pad(..., "constant")`). -/
def padRow (row : List ℚ) (w : ℕ) : List ℚ :=
  row ++ List.replicate (w - row.length) 0

/-- `UnidicFeatures29.to_onehot`: one row per selected classifiable field
in declared order (pos1, pos2, pos3, pos4, cType, cForm, goshu, type),
right-zero-padded to the maximum category count and stacked. -/
def UnidicFeatures29.to_onehot (r : UnidicFeatures29) : Mat :=
  let onehot : List (List ℚ) :=
    [fieldRow pos1Order r.pos1, fieldRow pos2Order r.pos2,
     fieldRow pos3Order r.pos3, fieldRow pos4Order r.pos4,
     fieldRow cTypeOrder r.cType, fieldRow cFormOrder r.cForm,
     fieldRow goshuOrder r.goshu, fieldRow typeOrder r.type]
  onehot.map (fun row => padRow row maxFieldLength)

/-! ### Line parsing (`ScriptParser.parse_word` / `parse_line`) -/

/-- Element-wise matrix addition (NumPy `+` on equal-shape arrays). -/
def matAdd (a b : Mat) : Mat := List.zipWith (List.zipWith (· + ·)) a b

/-- Python `sum(grammar_slices)`: starts from the scalar `0` (which is the
identity under broadcasting) and adds left to right. -/
def matSum : List Mat → Mat
  | [] => []
  | m :: ms => ms.foldl matAdd m

/-- `grammar_sum / len(grammar_slices)`: element-wise division. -/
def matDiv (m : Mat) (n : ℕ) : Mat := m.map (List.map (fun x => x / (n : ℚ)))

/-- `np.zeros((r, c))`. -/
def zerosMat (r c : ℕ) : Mat := List.replicate r (List.replicate c 0)

/-- Lines 60-67 of parsing.py: the computation of the local
`grammar_fingerprint` from the line's surviving word matrices (the
`astype(np.float16)` storage cast is exact on the values these claims
involve). -/
def fingerprint (slices : List Mat) : Mat :=
  if slices.length = 0 then zerosMat 8 81
  else if slices.length = 1 then slices.headD []
  else matDiv (matSum slices) slices.length

/-- `ScriptParser.parse_word`: strict mode (no `analysis_dict`) lets the
classification `ValueError` escape; tolerant mode drops the word
(returns `None`) when record assembly fails, else encodes it. -/
def parse_word (analysis_mode : Bool) (w : FugashiFeature) (d : Ledger) :
    Except String (Option Mat) × Ledger :=
  if analysis_mode then
    let (ro, d1) := UnidicFeatures29.from_fugashi_tolerant w d
    (.ok (ro.map UnidicFeatures29.to_onehot), d1)
  else
    match UnidicFeatures29.from_fugashi_strict w with
    | .ok rec => (.ok (some rec.to_onehot), d)
    | .error e => (.error e, d)

/-- Line 57 of parsing.py: `[self.parse_word(w) for w in words]`, threading
the parser's ledger; an escaping exception aborts the whole line. -/
def line_word_results (analysis_mode : Bool) :
    List FugashiFeature → Ledger → Except String (List (Option Mat)) × Ledger
  | [], d => (.ok [], d)
  | w :: ws, d =>
      match parse_word analysis_mode w d with
      | (.ok mo, d1) =>
          match line_word_results analysis_mode ws d1 with
          | (.ok rest, d2) => (.ok (mo :: rest), d2)
          | (.error e, d2) => (.error e, d2)
      | (.error e, d1) => (.error e, d1)

/-- Line 58 of parsing.py: keep only the non-`None` word matrices. -/
def line_slices (analysis_mode : Bool) (ws : List FugashiFeature) (d : Ledger) :
    Except String (List Mat) × Ledger :=
  match line_word_results analysis_mode ws d with
  | (.ok mos, d1) => (.ok (mos.filterMap id), d1)
  | (.error e, d1) => (.error e, d1)

/-! ### The `ScriptLine` model (types/scripts.py) and the line result

The pydantic models below are embedded with their declared fields;
str-enum-typed attributes are carried as their raw string values, as the
Unidic enums are elsewhere in this file. -/

/-- `KanjiData` (types/text.py). -/
structure KanjiData where
  character : String
  freq_rank : Option Int
  is_jinmeiyo : Bool
  is_jouyou : Bool
  is_kyouiku : Bool

/-- `Kanji` (types/text.py). -/
structure Kanji where
  character : String
  data : KanjiData

/-- `VocabData` (types/text.py); `lemma_data` is recursively optional. -/
inductive VocabData where
  | mk (kana : String) (common_spellings : List String)
      (freq_rank : Option Int) (lemma_data : Option VocabData)

/-- `Vocab` (types/text.py); `type` and `verb_forms` carry the raw values
of the `VocabType` and `VerbForm` str-enums. -/
inductive Vocab where
  | mk (word : String) (reading : String) (data : Option VocabData)
      (type : String) (verb_forms : Option (List String))
      (component_kanji : List Kanji) (component_vocab : List Vocab)

/-- `ScriptLine` (types/scripts.py lines 95-101): it declares `text` and a
*required* `vocab_breakdown`, and it has **no** `grammar_fingerprint`
field. -/
structure ScriptLine where
  text : String
  vocab_breakdown : List Vocab

/-- Pydantic's `ValidationError` for the `ScriptLine` construction at
parsing.py line 69 (message abbreviated from pydantic's report). -/
def scriptLineValidationError : String :=
  "ValidationError: 1 validation error for ScriptLine: vocab_breakdown: Field required"

/-- The constructor call
`ScriptLine(text=line, grammar_fingerprint=grammar_fingerprint)` at
parsing.py line 69.  `ScriptLine` has no `grammar_fingerprint` field and
requires `vocab_breakdown`, which is not passed; pydantic v2 ignores the
unknown keyword (default `extra="ignore"`) and raises `ValidationError`
for the missing required field — on every call, whatever the arguments,
in both modes. -/
def scriptLineInit (_text : String) (_grammar_fingerprint : Mat) :
    Except String ScriptLine :=
  .error scriptLineValidationError

/-- `ScriptParser.parse_line`, with the tagger's tokenization of `line`
supplied as `ws`: it computes the surviving word matrices and the local
`grammar_fingerprint` (lines 57-67), then attempts the `ScriptLine`
construction of line 69, which raises `ValidationError` unconditionally;
in strict mode an earlier classification `ValueError` escapes from
`parse_word` first.  Either way the exception propagates to the caller. -/
def parse_line (analysis_mode : Bool) (line : String)
    (ws : List FugashiFeature) (d : Ledger) :
    Except String ScriptLine × Ledger :=
  match line_slices analysis_mode ws d with
  | (.ok slices, d1) => (scriptLineInit line (fingerprint slices), d1)
  | (.error e, d1) => (.error e, d1)

/-! ### The eight classifiable fields, abstractly -/

/-- The classifiable (one-hot encodeable) fields, i.e. the enum-typed
attributes selected by `to_onehot`, in its declared row order. -/
inductive ClassField
  | pos1 | pos2 | pos3 | pos4 | cType | cForm | goshu | type
deriving DecidableEq, Repr

/-- The field's enum member values (`cls.__members__.values()`). -/
def ClassField.members : ClassField → List String
  | .pos1 => pos1Members
  | .pos2 => pos2Members
  | .pos3 => pos3Members
  | .pos4 => pos4Members
  | .cType => cTypeMembers
  | .cForm => cFormMembers
  | .goshu => goshuMembers
  | .type => typeMembers

/-- The field's canonical one-hot order (`cls.get_onehot_order()`). -/
def ClassField.order : ClassField → List String
  | .pos1 => pos1Order
  | .pos2 => pos2Order
  | .pos3 => pos3Order
  | .pos4 => pos4Order
  | .cType => cTypeOrder
  | .cForm => cFormOrder
  | .goshu => goshuOrder
  | .type => typeOrder

/-- The field's class name (`cls.__name__`), used in error messages. -/
def ClassField.className : ClassField → String
  | .pos1 => "UnidicPos1"
  | .pos2 => "UnidicPos2"
  | .pos3 => "UnidicPos3"
  | .pos4 => "UnidicPos4"
  | .cType => "UnidicCType"
  | .cForm => "UnidicCForm"
  | .goshu => "UnidicGoshu"
  | .type => "UnidicType"

/-- The field's attribute name, used as the ledger key. -/
def ClassField.pyName : ClassField → String
  | .pos1 => "pos1"
  | .pos2 => "pos2"
  | .pos3 => "pos3"
  | .pos4 => "pos4"
  | .cType => "cType"
  | .cForm => "cForm"
  | .goshu => "goshu"
  | .type => "type"

/-- The field's row index in the `to_onehot` matrix. -/
def ClassField.rowIdx : ClassField → ℕ
  | .pos1 => 0
  | .pos2 => 1
  | .pos3 => 2
  | .pos4 => 3
  | .cType => 4
  | .cForm => 5
  | .goshu => 6
  | .type => 7

/-- The field's raw value in a tokenizer feature. -/
def ClassField.raw (F : ClassField) (f : FugashiFeature) : Option String :=
  match F with
  | .pos1 => f.pos1
  | .pos2 => f.pos2
  | .pos3 => f.pos3
  | .pos4 => f.pos4
  | .cType => f.cType
  | .cForm => f.cForm
  | .goshu => f.goshu
  | .type => f.type

/-- The field's value in a validated record. -/
def ClassField.get (F : ClassField) (r : UnidicFeatures29) : Option String :=
  match F with
  | .pos1 => r.pos1
  | .pos2 => r.pos2
  | .pos3 => r.pos3
  | .pos4 => r.pos4
  | .cType => r.cType
  | .cForm => r.cForm
  | .goshu => r.goshu
  | .type => r.type

/-! ### Record and ledger predicates -/

/-- The fields pydantic requires to be non-null on the tolerant path: the
12 plain string fields and the 2 integer ids. -/
def requiredPresent (f : FugashiFeature) : Prop :=
  f.lForm.isSome = true ∧ f.lemma_.isSome = true ∧ f.orth.isSome = true ∧
  f.pron.isSome = true ∧ f.orthBase.isSome = true ∧ f.pronBase.isSome = true ∧
  f.kana.isSome = true ∧ f.kanaBase.isSome = true ∧ f.form.isSome = true ∧
  f.formBase.isSome = true ∧ f.aType.isSome = true ∧ f.aConType.isSome = true ∧
  f.lid.isSome = true ∧ f.lemma_id.isSome = true

/-- The record invariant pydantic enforces: a classifiable attribute's
value, if non-null, is a member of that field's category list. -/
def UnidicFeatures29.Valid (r : UnidicFeatures29) : Prop :=
  ∀ F : ClassField, ∀ c : String, F.get r = some c → c ∈ F.members

/-- The contribution of one classified field to the ledger: nothing if
there was no unmatched remainder, `{v}` under the field's name otherwise. -/
def missOf (name : String) (raw : Option String) (n : String) : Finset String :=
  match raw with
  | none => ∅
  | some v => if n = name then {v} else ∅

/-- The per-field unmatched raw values contributed by one word. -/
def wordMisses (f : FugashiFeature) (n : String) : Finset String :=
  missOf "pos1" (classifyT pos1Members f.pos1).2 n ∪
  (missOf "pos2" (classifyT pos2Members f.pos2).2 n ∪
  (missOf "pos3" (classifyT pos3Members f.pos3).2 n ∪
  (missOf "pos4" (classifyT pos4Members f.pos4).2 n ∪
  (missOf "cType" (classifyT cTypeMembers f.cType).2 n ∪
  (missOf "cForm" (classifyT cFormMembers f.cForm).2 n ∪
  (missOf "goshu" (classifyT goshuMembers f.goshu).2 n ∪
  (missOf "iType" (UnidicGeneralString.from_fugashi f.iType).2 n ∪
  (missOf "iForm" (UnidicGeneralString.from_fugashi f.iForm).2 n ∪
  (missOf "fType" (UnidicGeneralString.from_fugashi f.fType).2 n ∪
  (missOf "fForm" (UnidicGeneralString.from_fugashi f.fForm).2 n ∪
  (missOf "iConType" (UnidicGeneralString.from_fugashi f.iConType).2 n ∪
  (missOf "fConType" (UnidicGeneralString.from_fugashi f.fConType).2 n ∪
  (missOf "type" (classifyT typeMembers f.type).2 n ∪
  missOf "aModType" (UnidicGeneralString.from_fugashi f.aModType).2 n)))))))))))))

/-- The per-field unmatched raw values contributed by a line of words. -/
def lineMisses : List FugashiFeature → String → Finset String
  | [], _ => ∅
  | w :: ws, n => wordMisses w n ∪ lineMisses ws n

/-- The ledger accumulation the tolerant constructor
(`UnidicFeatures29.from_fugashi`, fugashi_wrap.py lines 714-774) performs
over a sequence of words in reading order: one `tolerantLedger` update
per word, exactly the mutations `parse_word` applies to the parser's
`analysis_dict` word by word. -/
def wordsLedger (ws : List FugashiFeature) (d : Ledger) : Ledger :=
  ws.foldl (fun d w => (UnidicFeatures29.from_fugashi_tolerant w d).2) d

/-- Tolerant ledger accumulation over several documents, each given by the
tokenizer's words in reading order, threading one ledger through them in
document order (the spec's seeded-ledger multi-document accumulation). -/
def runLedger (docs : List (List FugashiFeature)) (d : Ledger) : Ledger :=
  docs.foldl (fun d ws => wordsLedger ws d) d

/-- The per-field unmatched raw values contributed by a list of documents
(each a word sequence). -/
def runMisses : List (List FugashiFeature) → String → Finset String
  | [], _ => ∅
  | ws :: docs, n => lineMisses ws n ∪ runMisses docs n

/-- Merging two ledgers per-field ("merging the resulting per-field
sets"). -/
def ledgerUnion (a b : Ledger) : Ledger := fun n => a n ∪ b n

/-! ### Sample inputs -/

/-- A record holding only the pos1 category 名詞 (noun). -/
def recNoun : UnidicFeatures29 :=
  { pos1 := some "名詞", pos2 := none, pos3 := none, pos4 := none,
    cType := none, cForm := none, lForm := "", lemma_ := "", orth := "",
    pron := "", orthBase := "", pronBase := "", goshu := none, iType := none,
    iForm := none, fType := none, fForm := none, iConType := none,
    fConType := none, type := none, kana := "", kanaBase := "", form := "",
    formBase := "", aType := "", aConType := "", aModType := none,
    lid := 0, lemma_id := 0 }

/-- A record holding only the pos1 category 動詞 (verb). -/
def recVerb : UnidicFeatures29 := { recNoun with pos1 := some "動詞" }

/-- A tokenizer word whose classifiable fields are all the absence
sentinel and whose pydantic-required fields are all present. -/
def wordStar : FugashiFeature :=
  { pos1 := some "*", pos2 := some "*", pos3 := some "*", pos4 := some "*",
    cType := some "*", cForm := some "*",
    lForm := some "ワタシ", lemma_ := some "私", orth := some "私",
    pron := some "ワタシ", orthBase := some "私", pronBase := some "ワタシ",
    goshu := some "*", iType := some "*", iForm := some "*",
    fType := some "*", fForm := some "*", iConType := some "*",
    fConType := some "*", type := some "*",
    kana := some "ワタシ", kanaBase := some "ワタシ", form := some "ワタシ",
    formBase := some "ワタシ", aType := some "0", aConType := some "C3",
    aModType := some "*", lid := some 1, lemma_id := some 2 }

/-- The record the tolerant path builds from `wordStar`. -/
def recStar : UnidicFeatures29 :=
  { pos1 := none, pos2 := none, pos3 := none, pos4 := none,
    cType := none, cForm := none, lForm := "ワタシ", lemma_ := "私",
    orth := "私", pron := "ワタシ", orthBase := "私", pronBase := "ワタシ",
    goshu := none, iType := none, iForm := none, fType := none,
    fForm := none, iConType := none, fConType := none, type := none,
    kana := "ワタシ", kanaBase := "ワタシ", form := "ワタシ", formBase := "ワタシ",
    aType := "0", aConType := "C3", aModType := none, lid := 1, lemma_id := 2 }

/-- `wordStar` with an unclassifiable pos1 value. -/
def wordBadPos1 : FugashiFeature := { wordStar with pos1 := some "zzz" }

/-- `wordStar` with a missing required field (`lemma`). -/
def wordNoLemma : FugashiFeature := { wordStar with lemma_ := none }

/-- `wordStar` classified as a noun. -/
def wordNoun : FugashiFeature := { wordStar with pos1 := some "名詞" }

/-- The record the tolerant path builds from `wordNoun`. -/
def recWordNoun : UnidicFeatures29 := { recStar with pos1 := some "名詞" }

/-! ### Basic facts about the canonical orders -/

/-- Analysis-mode `from_fugashi` is total: it returns `classifyT`. -/
theorem from_fugashi_analysis (clsName : String) (members : List String)
    (field : Option String) :
    UnidicField.from_fugashi clsName members field true =
      .ok (classifyT members field) := by
  cases field with
  | none => rfl
  | some f =>
      simp only [UnidicField.from_fugashi, classifyT]
      split <;> [rfl; skip]
      split <;> [rfl; rfl]

theorem mem_canonicalOrder {a : String} {l : List String} :
    a ∈ canonicalOrder l ↔ a ∈ l := by
  rw [canonicalOrder, (List.perm_insertionSort strLe l.dedup).mem_iff]
  exact List.mem_dedup

theorem canonicalOrder_nodup (l : List String) : (canonicalOrder l).Nodup :=
  ((List.perm_insertionSort strLe l.dedup).nodup_iff).mpr (List.nodup_dedup l)

theorem canonicalOrder_length (l : List String) :
    (canonicalOrder l).length = l.dedup.length :=
  (List.perm_insertionSort strLe l.dedup).length_eq

/-- Membership in a field's one-hot order coincides with membership in
its member-value list. -/
theorem ClassField.mem_order_iff (F : ClassField) (c : String) :
    c ∈ F.order ↔ c ∈ F.members := by
  cases F <;>
    simp only [ClassField.order, ClassField.members, pos1Order, pos2Order,
      pos3Order, pos4Order, cTypeOrder, cFormOrder, goshuOrder, typeOrder,
      mem_canonicalOrder]

/-- The absence sentinel is not a member value of any classifiable field. -/
theorem star_not_mem_members (F : ClassField) : "*" ∉ F.members := by
  cases F <;> decide

theorem le_foldl_max_init (l : List ℕ) (a : ℕ) : a ≤ l.foldl Nat.max a := by
  induction l generalizing a with
  | nil => exact le_refl a
  | cons y ys ih => exact le_trans (Nat.le_max_left a y) (ih (Nat.max a y))

theorem le_foldl_max (l : List ℕ) (a x : ℕ) (hx : x ∈ l) :
    x ≤ l.foldl Nat.max a := by
  induction l generalizing a with
  | nil => cases hx
  | cons y ys ih =>
      rcases List.mem_cons.mp hx with rfl | hx
      · exact le_trans (Nat.le_max_right a x) (le_foldl_max_init ys (Nat.max a x))
      · exact ih (Nat.max a y) hx

/-- Every field's category count is bounded by the padded width. -/
theorem ClassField.order_length_le (F : ClassField) :
    F.order.length ≤ maxFieldLength := by
  cases F <;>
    exact le_foldl_max _ 0 _ (by simp [ClassField.order])

/-! ### Indicator vectors -/

/-- The indicator vector of index `i` over width `n`: 1 at `i`, 0
elsewhere. -/
def indVec (i n : ℕ) : List ℚ :=
  (List.range n).map (fun j => if i = j then 1 else 0)

theorem field_to_onehot_eq_indVec (order : List String) (v : String) :
    field_to_onehot order v = indVec (List.indexOf v order) order.length := rfl

theorem indVec_length (i n : ℕ) : (indVec i n).length = n := by
  simp [indVec]

theorem indVec_sum_of_ge {i n : ℕ} (h : n ≤ i) : (indVec i n).sum = 0 := by
  induction n with
  | zero => rfl
  | succ n ih =>
      rw [indVec, List.range_succ, List.map_append, List.sum_append]
      have hi : i ≠ n := by omega
      simp [indVec] at ih ⊢
      rw [ih (by omega)]
      simp [hi]

theorem indVec_sum_of_lt {i n : ℕ} (h : i < n) : (indVec i n).sum = 1 := by
  induction n with
  | zero => omega
  | succ n ih =>
      rw [indVec, List.range_succ, List.map_append, List.sum_append]
      by_cases hi : i = n
      · have h0 : ((List.range n).map (fun j => if i = j then (1:ℚ) else 0)).sum = 0 := by
          have hge := indVec_sum_of_ge (i := i) (n := n) (by omega)
          simpa [indVec] using hge
        rw [h0]
        simp [hi]
      · have hlt : i < n := by omega
        have h1 : ((List.range n).map (fun j => if i = j then (1:ℚ) else 0)).sum = 1 := by
          simpa [indVec] using ih hlt
        rw [h1]
        simp [hi]

theorem padRow_length {row : List ℚ} {w : ℕ} (h : row.length ≤ w) :
    (padRow row w).length = w := by
  simp [padRow]
  omega

theorem padRow_sum (row : List ℚ) (w : ℕ) : (padRow row w).sum = row.sum := by
  simp [padRow]

/-- Padding an indicator vector with zeros widens it. -/
theorem padRow_indVec {i n m : ℕ} (h : i < n) (hnm : n ≤ m) :
    padRow (indVec i n) m = indVec i m := by
  have hrange : List.range m = List.range n ++ (List.range (m - n)).map (n + ·) := by
    rw [← List.range_add]
    congr 1
    omega
  simp only [indVec]
  rw [hrange, List.map_append, List.map_map]
  have hzero : ((List.range (m - n)).map ((fun j => if i = j then (1:ℚ) else 0) ∘ (n + ·)))
      = List.replicate (m - n) 0 := by
    rw [List.eq_replicate_iff]
    constructor
    · simp
    · intro b hb
      simp only [List.mem_map, Function.comp] at hb
      obtain ⟨j, _, hj⟩ := hb
      have hne : i ≠ n + j := by omega
      rw [if_neg hne] at hj
      exact hj.symm
  rw [hzero]
  simp [padRow]

/-- Padding an all-zero row with zeros gives a wider all-zero row. -/
theorem padRow_replicate {n m : ℕ} (h : n ≤ m) :
    padRow (List.replicate n (0:ℚ)) m = List.replicate m 0 := by
  rw [padRow, List.length_replicate, ← List.replicate_add]
  congr 1
  omega

theorem fieldRow_length (order : List String) (v : Option String) :
    (fieldRow order v).length = order.length := by
  cases v <;> simp [fieldRow, field_to_onehot]

/-- Row extraction: the row of `to_onehot` at a field's index is that
field's padded row. -/
theorem to_onehot_get (r : UnidicFeatures29) (F : ClassField) :
    r.to_onehot.get? F.rowIdx =
      some (padRow (fieldRow F.order (F.get r)) maxFieldLength) := by
  cases F <;> rfl

/-! ### Ledger and pipeline characterizations -/

theorem mergeLedger_apply (d : Ledger) (name : String) (raw : Option String)
    (n : String) : mergeLedger d name raw n = d n ∪ missOf name raw n := by
  cases raw with
  | none => simp [mergeLedger, missOf]
  | some v =>
      simp only [mergeLedger, missOf]
      by_cases h : n = name
      · subst h
        simp
      · simp [h]

theorem tolerantLedger_apply (f : FugashiFeature) (d : Ledger) (n : String) :
    tolerantLedger f d n = d n ∪ wordMisses f n := by
  simp only [tolerantLedger, mergeLedger_apply, wordMisses, Finset.union_assoc]

theorem parse_word_tolerant (w : FugashiFeature) (d : Ledger) :
    parse_word true w d =
      (.ok ((tolerantRecord w).map UnidicFeatures29.to_onehot),
        tolerantLedger w d) := rfl

theorem line_word_results_tolerant (ws : List FugashiFeature) (d : Ledger) :
    line_word_results true ws d =
      (.ok (ws.map (fun w => (tolerantRecord w).map UnidicFeatures29.to_onehot)),
       fun n => d n ∪ lineMisses ws n) := by
  induction ws generalizing d with
  | nil =>
      refine Prod.ext rfl ?_
      funext n
      simp [line_word_results, lineMisses]
  | cons w ws ih =>
      simp only [line_word_results, parse_word_tolerant, ih, List.map_cons]
      refine Prod.ext rfl ?_
      funext n
      simp [tolerantLedger_apply, lineMisses, Finset.union_assoc]

theorem line_slices_tolerant (ws : List FugashiFeature) (d : Ledger) :
    line_slices true ws d =
      (.ok ((ws.map (fun w => (tolerantRecord w).map UnidicFeatures29.to_onehot)).filterMap id),
       fun n => d n ∪ lineMisses ws n) := by
  simp [line_slices, line_word_results_tolerant]

theorem parse_line_tolerant (line : String) (ws : List FugashiFeature)
    (d : Ledger) :
    parse_line true line ws d =
      (.error scriptLineValidationError, fun n => d n ∪ lineMisses ws n) := by
  simp [parse_line, line_slices_tolerant, scriptLineInit]

theorem wordsLedger_apply (ws : List FugashiFeature) (d : Ledger)
    (n : String) : wordsLedger ws d n = d n ∪ lineMisses ws n := by
  induction ws generalizing d with
  | nil => simp [wordsLedger, lineMisses]
  | cons w ws ih =>
      simp only [wordsLedger, List.foldl_cons] at ih ⊢
      rw [ih]
      simp only [UnidicFeatures29.from_fugashi_tolerant]
      rw [tolerantLedger_apply]
      simp [lineMisses, Finset.union_assoc]

theorem line_word_results_ledger (ws : List FugashiFeature) (d : Ledger)
    (n : String) : (line_word_results true ws d).2 n = wordsLedger ws d n := by
  rw [line_word_results_tolerant, wordsLedger_apply]

theorem runLedger_apply (docs : List (List FugashiFeature)) (d : Ledger)
    (n : String) : runLedger docs d n = d n ∪ runMisses docs n := by
  induction docs generalizing d with
  | nil => simp [runLedger, runMisses]
  | cons doc docs ih =>
      simp only [runLedger, List.foldl_cons] at ih ⊢
      rw [ih, wordsLedger_apply]
      simp [runMisses, Finset.union_assoc]

theorem runMisses_append (as bs : List (List FugashiFeature)) (n : String) :
    runMisses (as ++ bs) n = runMisses as n ∪ runMisses bs n := by
  induction as with
  | nil => simp [runMisses]
  | cons a as ih => simp [runMisses, ih, Finset.union_assoc]

theorem runMisses_reverse (docs : List (List FugashiFeature)) (n : String) :
    runMisses docs.reverse n = runMisses docs n := by
  induction docs with
  | nil => rfl
  | cons doc docs ih =>
      rw [List.reverse_cons, runMisses_append]
      simp [runMisses, ih, Finset.union_comm]

/-! ### Further helpers -/

theorem classifyT_miss {members : List String} {raw : String}
    (h1 : raw ∉ members) (h2 : raw ≠ "*") :
    classifyT members (some raw) = (none, some raw) := by
  simp [classifyT, h1, h2]

theorem tolerantRecord_of_required {f : FugashiFeature} (h : requiredPresent f) :
    ∃ rec, tolerantRecord f = some rec ∧
      ∀ G : ClassField, G.get rec = (classifyT G.members (G.raw f)).1 := by
  obtain ⟨h1, h2, h3, h4, h5, h6, h7, h8, h9, h10, h11, h12, h13, h14⟩ := h
  obtain ⟨vLF, e1⟩ := Option.isSome_iff_exists.mp h1
  obtain ⟨vLM, e2⟩ := Option.isSome_iff_exists.mp h2
  obtain ⟨vOR, e3⟩ := Option.isSome_iff_exists.mp h3
  obtain ⟨vPR, e4⟩ := Option.isSome_iff_exists.mp h4
  obtain ⟨vOB, e5⟩ := Option.isSome_iff_exists.mp h5
  obtain ⟨vPB, e6⟩ := Option.isSome_iff_exists.mp h6
  obtain ⟨vKA, e7⟩ := Option.isSome_iff_exists.mp h7
  obtain ⟨vKB, e8⟩ := Option.isSome_iff_exists.mp h8
  obtain ⟨vFO, e9⟩ := Option.isSome_iff_exists.mp h9
  obtain ⟨vFB, e10⟩ := Option.isSome_iff_exists.mp h10
  obtain ⟨vAT, e11⟩ := Option.isSome_iff_exists.mp h11
  obtain ⟨vAC, e12⟩ := Option.isSome_iff_exists.mp h12
  obtain ⟨vLI, e13⟩ := Option.isSome_iff_exists.mp h13
  obtain ⟨vLID, e14⟩ := Option.isSome_iff_exists.mp h14
  refine ⟨{ pos1 := (classifyT pos1Members f.pos1).1,
            pos2 := (classifyT pos2Members f.pos2).1,
            pos3 := (classifyT pos3Members f.pos3).1,
            pos4 := (classifyT pos4Members f.pos4).1,
            cType := (classifyT cTypeMembers f.cType).1,
            cForm := (classifyT cFormMembers f.cForm).1,
            lForm := vLF, lemma_ := vLM, orth := vOR, pron := vPR,
            orthBase := vOB, pronBase := vPB,
            goshu := (classifyT goshuMembers f.goshu).1,
            iType := (UnidicGeneralString.from_fugashi f.iType).1,
            iForm := (UnidicGeneralString.from_fugashi f.iForm).1,
            fType := (UnidicGeneralString.from_fugashi f.fType).1,
            fForm := (UnidicGeneralString.from_fugashi f.fForm).1,
            iConType := (UnidicGeneralString.from_fugashi f.iConType).1,
            fConType := (UnidicGeneralString.from_fugashi f.fConType).1,
            type := (classifyT typeMembers f.type).1,
            kana := vKA, kanaBase := vKB, form := vFO, formBase := vFB,
            aType := vAT, aConType := vAC,
            aModType := (UnidicGeneralString.from_fugashi f.aModType).1,
            lid := vLI, lemma_id := vLID }, ?_, ?_⟩
  · rw [tolerantRecord, e1, e2, e3, e4, e5, e6, e7, e8, e9, e10, e11, e12,
      e13, e14]
    rfl
  · intro G
    cases G <;> rfl

theorem requiredPresent_of_tolerantRecord {f : FugashiFeature}
    {rec : UnidicFeatures29} (h : tolerantRecord f = some rec) :
    requiredPresent f := by
  rw [tolerantRecord] at h
  rcases e1 : f.lForm with _ | vLF <;> rw [e1] at h
  · rw [Option.none_bind] at h
    exact Option.noConfusion h
  rw [Option.some_bind] at h
  rcases e2 : f.lemma_ with _ | vLM <;> rw [e2] at h
  · rw [Option.none_bind] at h
    exact Option.noConfusion h
  rw [Option.some_bind] at h
  rcases e3 : f.orth with _ | vOR <;> rw [e3] at h
  · rw [Option.none_bind] at h
    exact Option.noConfusion h
  rw [Option.some_bind] at h
  rcases e4 : f.pron with _ | vPR <;> rw [e4] at h
  · rw [Option.none_bind] at h
    exact Option.noConfusion h
  rw [Option.some_bind] at h
  rcases e5 : f.orthBase with _ | vOB <;> rw [e5] at h
  · rw [Option.none_bind] at h
    exact Option.noConfusion h
  rw [Option.some_bind] at h
  rcases e6 : f.pronBase with _ | vPB <;> rw [e6] at h
  · rw [Option.none_bind] at h
    exact Option.noConfusion h
  rw [Option.some_bind] at h
  rcases e7 : f.kana with _ | vKA <;> rw [e7] at h
  · rw [Option.none_bind] at h
    exact Option.noConfusion h
  rw [Option.some_bind] at h
  rcases e8 : f.kanaBase with _ | vKB <;> rw [e8] at h
  · rw [Option.none_bind] at h
    exact Option.noConfusion h
  rw [Option.some_bind] at h
  rcases e9 : f.form with _ | vFO <;> rw [e9] at h
  · rw [Option.none_bind] at h
    exact Option.noConfusion h
  rw [Option.some_bind] at h
  rcases e10 : f.formBase with _ | vFB <;> rw [e10] at h
  · rw [Option.none_bind] at h
    exact Option.noConfusion h
  rw [Option.some_bind] at h
  rcases e11 : f.aType with _ | vAT <;> rw [e11] at h
  · rw [Option.none_bind] at h
    exact Option.noConfusion h
  rw [Option.some_bind] at h
  rcases e12 : f.aConType with _ | vAC <;> rw [e12] at h
  · rw [Option.none_bind] at h
    exact Option.noConfusion h
  rw [Option.some_bind] at h
  rcases e13 : f.lid with _ | vLI <;> rw [e13] at h
  · rw [Option.none_bind] at h
    exact Option.noConfusion h
  rw [Option.some_bind] at h
  rcases e14 : f.lemma_id with _ | vLID <;> rw [e14] at h
  · rw [Option.none_bind] at h
    exact Option.noConfusion h
  exact ⟨by simp [e1], by simp [e2], by simp [e3], by simp [e4], by simp [e5],
    by simp [e6], by simp [e7], by simp [e8], by simp [e9], by simp [e10],
    by simp [e11], by simp [e12], by simp [e13], by simp [e14]⟩

/-- Shape of the encoder output: 8 rows, each `maxFieldLength` wide. -/
theorem to_onehot_shape (r : UnidicFeatures29) :
    r.to_onehot.length = 8 ∧
    ∀ row ∈ r.to_onehot, row.length = maxFieldLength := by
  constructor
  · rfl
  · intro row hrow
    simp only [UnidicFeatures29.to_onehot, List.mem_map, List.mem_cons,
      List.not_mem_nil, or_false] at hrow
    obtain ⟨r0, hr0, rfl⟩ := hrow
    rcases hr0 with rfl | rfl | rfl | rfl | rfl | rfl | rfl | rfl
    · exact padRow_length (by rw [fieldRow_length]; exact ClassField.order_length_le .pos1)
    · exact padRow_length (by rw [fieldRow_length]; exact ClassField.order_length_le .pos2)
    · exact padRow_length (by rw [fieldRow_length]; exact ClassField.order_length_le .pos3)
    · exact padRow_length (by rw [fieldRow_length]; exact ClassField.order_length_le .pos4)
    · exact padRow_length (by rw [fieldRow_length]; exact ClassField.order_length_le .cType)
    · exact padRow_length (by rw [fieldRow_length]; exact ClassField.order_length_le .cForm)
    · exact padRow_length (by rw [fieldRow_length]; exact ClassField.order_length_le .goshu)
    · exact padRow_length (by rw [fieldRow_length]; exact ClassField.order_length_le .type)

/-! ### The claims -/

/-- **C8**: for every classifiable field, both the absence sentinel `"*"`
and a true absence (`None`) classify to `(null, null)` — no error raised,
no unmatched remainder, and hence no ledger entry (merging a `None`
remainder leaves the ledger unchanged) — in both strict and tolerant
mode. -/
theorem C8_absence_yields_null (F : ClassField) (mode : Bool) :
    UnidicField.from_fugashi F.className F.members (some "*") mode =
      .ok (none, none) ∧
    UnidicField.from_fugashi F.className F.members none mode =
      .ok (none, none) ∧
    (∀ d : Ledger, ∀ name : String, mergeLedger d name none = d) :=
  ⟨rfl, rfl, fun _ _ => rfl⟩

/-- **C1**: for every classifiable field and every category `c` in its
canonical one-hot order, classification of `c`'s raw string succeeds with
`c` and no unmatched remainder in both modes, and a record holding `c`
encodes, at the field's row, the width-`maxFieldLength` indicator vector
with its single 1 at `c`'s index in the canonical order.  (The embedding
is a pure function, so repeated calls on equal inputs are identical by
construction.) -/
theorem C1_canonical_roundtrip (F : ClassField) (c : String) (hc : c ∈ F.order)
    (mode : Bool) (r : UnidicFeatures29) (hr : F.get r = some c) :
    UnidicField.from_fugashi F.className F.members (some c) mode =
      .ok (some c, none) ∧
    ∃ i, List.indexOf c F.order = i ∧ i < F.order.length ∧
      F.order.get? i = some c ∧
      r.to_onehot.get? F.rowIdx = some (indVec i maxFieldLength) := by
  have hmem : c ∈ F.members := (F.mem_order_iff c).mp hc
  have hstar : c ≠ "*" := fun h => star_not_mem_members F (h ▸ hmem)
  constructor
  · simp [UnidicField.from_fugashi, hstar, hmem]
  · refine ⟨List.indexOf c F.order, rfl, List.indexOf_lt_length.mpr hc,
      List.indexOf_get? hc, ?_⟩
    rw [to_onehot_get, hr]
    show some (padRow (field_to_onehot F.order c) maxFieldLength) = _
    rw [field_to_onehot_eq_indVec,
      padRow_indVec (List.indexOf_lt_length.mpr hc) F.order_length_le]

/-- Witness for C1: field pos1, category 名詞 (noun), strict mode, on the
record `recNoun`. -/
theorem C1_witness :
    UnidicField.from_fugashi ClassField.pos1.className ClassField.pos1.members
      (some "名詞") false = .ok (some "名詞", none) ∧
    ∃ i, List.indexOf "名詞" ClassField.pos1.order = i ∧
      i < ClassField.pos1.order.length ∧
      ClassField.pos1.order.get? i = some "名詞" ∧
      recNoun.to_onehot.get? ClassField.pos1.rowIdx =
        some (indVec i maxFieldLength) :=
  C1_canonical_roundtrip ClassField.pos1 "名詞" (by decide) false recNoun rfl

/-- **C3**: for every classifiable field `F` and every raw value not in
`F`'s canonical category list — "raw string" meaning a present value: the
absence sentinel `"*"` denotes absence per the data model and claim C8,
hence the hypothesis `raw ≠ "*"` — strict classification fails with an
error naming the field's class name and the raw value; tolerant
classification returns null plus the raw remainder; and at record level
the raw value is merged into the ledger under `F`'s attribute name while
assembly of the other 28 fields proceeds: whenever the pydantic-required
fields are present a record is still produced, every classifiable field
of which holds its own classification result. -/
theorem C3_unmatched_value (F : ClassField) (raw : String)
    (h1 : raw ∉ F.members) (h2 : raw ≠ "*") :
    UnidicField.from_fugashi F.className F.members (some raw) false =
      .error ("Invalid value for " ++ F.className ++ ": " ++ raw) ∧
    UnidicField.from_fugashi F.className F.members (some raw) true =
      .ok (none, some raw) ∧
    ∀ f : FugashiFeature, F.raw f = some raw → ∀ d : Ledger,
      raw ∈ (UnidicFeatures29.from_fugashi_tolerant f d).2 F.pyName ∧
      (requiredPresent f →
        ∃ rec, (UnidicFeatures29.from_fugashi_tolerant f d).1 = some rec ∧
          ∀ G : ClassField, G.get rec = (classifyT G.members (G.raw f)).1) := by
  refine ⟨by simp [UnidicField.from_fugashi, h1, h2],
    by simp [UnidicField.from_fugashi, h1, h2], ?_⟩
  intro f hf d
  constructor
  · show raw ∈ tolerantLedger f d F.pyName
    rw [tolerantLedger_apply]
    refine Finset.mem_union_right _ ?_
    cases F <;>
      simp_all [ClassField.raw, ClassField.pyName, ClassField.members,
        wordMisses, missOf, classifyT]
  · intro hreq
    exact tolerantRecord_of_required hreq

/-- Witness for C3: the unmatched raw value `"zzz"` on field pos1, with
the feature `wordBadPos1` (all required fields present). -/
theorem C3_witness :
    UnidicField.from_fugashi ClassField.pos1.className ClassField.pos1.members
      (some "zzz") false =
      .error ("Invalid value for " ++ ClassField.pos1.className ++ ": " ++ "zzz") ∧
    UnidicField.from_fugashi ClassField.pos1.className ClassField.pos1.members
      (some "zzz") true = .ok (none, some "zzz") ∧
    ∀ f : FugashiFeature, ClassField.pos1.raw f = some "zzz" → ∀ d : Ledger,
      "zzz" ∈ (UnidicFeatures29.from_fugashi_tolerant f d).2 ClassField.pos1.pyName ∧
      (requiredPresent f →
        ∃ rec, (UnidicFeatures29.from_fugashi_tolerant f d).1 = some rec ∧
          ∀ G : ClassField, G.get rec = (classifyT G.members (G.raw f)).1) :=
  C3_unmatched_value ClassField.pos1 "zzz" (by decide) (by decide)

/-- **C10**: the two construction modes disagree on absent plain freeform
string fields (lForm, lemma, orth, pron, orthBase, pronBase, kana,
kanaBase, form, formBase, aType, aConType): the tolerant path passes the
absent value through, record validation fails and the word is dropped
(`None`); the strict path substitutes `""` for each absent plain field
and — provided the classifiable fields themselves classify — construction
succeeds. -/
theorem C10_plain_absent_divergence (f : FugashiFeature) (d : Ledger)
    (habs : f.lForm = none ∨ f.lemma_ = none ∨ f.orth = none ∨ f.pron = none ∨
      f.orthBase = none ∨ f.pronBase = none ∨ f.kana = none ∨
      f.kanaBase = none ∨ f.form = none ∨ f.formBase = none ∨
      f.aType = none ∨ f.aConType = none)
    (hcl : ∀ F : ClassField, ∃ v,
      UnidicField.from_fugashi F.className F.members (F.raw f) false = .ok v) :
    (UnidicFeatures29.from_fugashi_tolerant f d).1 = none ∧
    ∃ rec, UnidicFeatures29.from_fugashi_strict f = .ok rec ∧
      rec.lForm = f.lForm.getD "" ∧ rec.lemma_ = f.lemma_.getD "" ∧
      rec.orth = f.orth.getD "" ∧ rec.pron = f.pron.getD "" ∧
      rec.orthBase = f.orthBase.getD "" ∧ rec.pronBase = f.pronBase.getD "" ∧
      rec.kana = f.kana.getD "" ∧ rec.kanaBase = f.kanaBase.getD "" ∧
      rec.form = f.form.getD "" ∧ rec.formBase = f.formBase.getD "" ∧
      rec.aType = f.aType.getD "" ∧ rec.aConType = f.aConType.getD "" := by
  constructor
  · show tolerantRecord f = none
    cases htr : tolerantRecord f with
    | none => rfl
    | some rec =>
        exfalso
        have hreq := requiredPresent_of_tolerantRecord htr
        obtain ⟨q1, q2, q3, q4, q5, q6, q7, q8, q9, q10, q11, q12, _, _⟩ := hreq
        rcases habs with h|h|h|h|h|h|h|h|h|h|h|h <;> simp_all
  · obtain ⟨v1, g1⟩ := hcl ClassField.pos1
    obtain ⟨v2, g2⟩ := hcl ClassField.pos2
    obtain ⟨v3, g3⟩ := hcl ClassField.pos3
    obtain ⟨v4, g4⟩ := hcl ClassField.pos4
    obtain ⟨v5, g5⟩ := hcl ClassField.cType
    obtain ⟨v6, g6⟩ := hcl ClassField.cForm
    obtain ⟨v7, g7⟩ := hcl ClassField.goshu
    obtain ⟨v8, g8⟩ := hcl ClassField.type
    simp only [ClassField.className, ClassField.members,
      ClassField.raw] at g1 g2 g3 g4 g5 g6 g7 g8
    have hstrict : UnidicFeatures29.from_fugashi_strict f = .ok
        { pos1 := v1.1, pos2 := v2.1, pos3 := v3.1, pos4 := v4.1,
          cType := v5.1, cForm := v6.1,
          lForm := f.lForm.getD "", lemma_ := f.lemma_.getD "",
          orth := f.orth.getD "", pron := f.pron.getD "",
          orthBase := f.orthBase.getD "", pronBase := f.pronBase.getD "",
          goshu := v7.1,
          iType := (UnidicGeneralString.from_fugashi f.iType).1,
          iForm := (UnidicGeneralString.from_fugashi f.iForm).1,
          fType := (UnidicGeneralString.from_fugashi f.fType).1,
          fForm := (UnidicGeneralString.from_fugashi f.fForm).1,
          iConType := (UnidicGeneralString.from_fugashi f.iConType).1,
          fConType := (UnidicGeneralString.from_fugashi f.fConType).1,
          type := v8.1,
          kana := f.kana.getD "", kanaBase := f.kanaBase.getD "",
          form := f.form.getD "", formBase := f.formBase.getD "",
          aType := f.aType.getD "", aConType := f.aConType.getD "",
          aModType := (UnidicGeneralString.from_fugashi f.aModType).1,
          lid := f.lid.getD 0, lemma_id := f.lemma_id.getD 0 } := by
      rw [UnidicFeatures29.from_fugashi_strict, g1, g2, g3, g4, g5, g6, g7, g8]
      rfl
    exact ⟨_, hstrict, rfl, rfl, rfl, rfl, rfl, rfl, rfl, rfl, rfl, rfl, rfl, rfl⟩

/-- Witness for C10: `wordNoLemma` (the `lemma` field absent, all
classifiable fields the absence sentinel). -/
theorem C10_witness :
    (UnidicFeatures29.from_fugashi_tolerant wordNoLemma emptyLedger).1 = none ∧
    ∃ rec, UnidicFeatures29.from_fugashi_strict wordNoLemma = .ok rec ∧
      rec.lForm = wordNoLemma.lForm.getD "" ∧
      rec.lemma_ = wordNoLemma.lemma_.getD "" ∧
      rec.orth = wordNoLemma.orth.getD "" ∧
      rec.pron = wordNoLemma.pron.getD "" ∧
      rec.orthBase = wordNoLemma.orthBase.getD "" ∧
      rec.pronBase = wordNoLemma.pronBase.getD "" ∧
      rec.kana = wordNoLemma.kana.getD "" ∧
      rec.kanaBase = wordNoLemma.kanaBase.getD "" ∧
      rec.form = wordNoLemma.form.getD "" ∧
      rec.formBase = wordNoLemma.formBase.getD "" ∧
      rec.aType = wordNoLemma.aType.getD "" ∧
      rec.aConType = wordNoLemma.aConType.getD "" :=
  C10_plain_absent_divergence wordNoLemma emptyLedger
    (Or.inr (Or.inl rfl)) (fun F => by cases F <;> exact ⟨_, rfl⟩)

/-- **C4**: for every record satisfying the record invariant, `to_onehot`
has constant shape — 8 rows (one per selected field in declared order),
each `maxFieldLength` wide, independent of the field values — and the row
of each field is the all-zero row exactly when that field is null, and
otherwise sums to exactly 1. -/
theorem C4_onehot_shape_and_rows (r : UnidicFeatures29) (hv : r.Valid) :
    r.to_onehot.length = 8 ∧
    (∀ row ∈ r.to_onehot, row.length = maxFieldLength) ∧
    ∀ F : ClassField, ∃ row, r.to_onehot.get? F.rowIdx = some row ∧
      ((F.get r = none ∧ row = List.replicate maxFieldLength 0) ∨ row.sum = 1) := by
  refine ⟨(to_onehot_shape r).1, (to_onehot_shape r).2, ?_⟩
  intro F
  refine ⟨_, to_onehot_get r F, ?_⟩
  cases hF : F.get r with
  | none =>
      refine Or.inl ⟨rfl, ?_⟩
      show padRow (fieldRow F.order none) maxFieldLength = _
      rw [fieldRow]
      exact padRow_replicate F.order_length_le
  | some c =>
      refine Or.inr ?_
      have hco : c ∈ F.order := (F.mem_order_iff c).mpr (hv F c hF)
      show (padRow (fieldRow F.order (some c)) maxFieldLength).sum = 1
      rw [padRow_sum, fieldRow, field_to_onehot_eq_indVec]
      exact indVec_sum_of_lt (List.indexOf_lt_length.mpr hco)

/-- Witness for C4: the record `recNoun`. -/
theorem C4_witness :
    recNoun.to_onehot.length = 8 ∧
    (∀ row ∈ recNoun.to_onehot, row.length = maxFieldLength) ∧
    ∀ F : ClassField, ∃ row, recNoun.to_onehot.get? F.rowIdx = some row ∧
      ((F.get recNoun = none ∧ row = List.replicate maxFieldLength 0) ∨
        row.sum = 1) :=
  C4_onehot_shape_and_rows recNoun (by
    intro F c h
    cases F <;> simp only [ClassField.get, recNoun] at h <;>
      first
        | exact Option.noConfusion h
        | (cases h; decide))

/-- **C6** — the claim is right about the aggregation the code computes,
and a code defect prevents its delivery: for every matrix `m`,
`fingerprint [m] = m` (the `n = 1` branch of parsing.py lines 60-67
returns the single surviving matrix unchanged, skipping the division),
and the concrete one-word line `[wordStar]` survives as exactly the
single matrix `recStar.to_onehot`; but `parse_line` then raises
pydantic's `ValidationError` constructing `ScriptLine` (which has no
`grammar_fingerprint` field and requires the never-passed
`vocab_breakdown`), so in the source no line ever yields its grammar
fingerprint. -/
theorem C6_single_matrix_vs_scriptline :
    (∀ m : Mat, fingerprint [m] = m) ∧
    (line_slices true [wordStar] emptyLedger).1 = .ok [recStar.to_onehot] ∧
    (parse_line true "" [wordStar] emptyLedger).1 =
      .error scriptLineValidationError :=
  ⟨fun _ => rfl, rfl, rfl⟩

/-- **C7** — the claim is right about the aggregation the code computes,
and a code defect prevents its delivery: zero surviving matrices give the
all-zero `np.zeros((8, 81))` fingerprint, whose shape is exactly the
canonical encoder shape (8 rows of width `maxFieldLength` = 81, the shape
`to_onehot` produces for every record); but `parse_line` then raises
pydantic's `ValidationError` constructing `ScriptLine`, so in the source
no line ever yields its fingerprint. -/
theorem C7_empty_aggregate_vs_scriptline :
    fingerprint [] = zerosMat 8 81 ∧
    zerosMat 8 81 = List.replicate 8 (List.replicate maxFieldLength 0) ∧
    (∀ r : UnidicFeatures29, r.to_onehot.length = 8 ∧
      ∀ row ∈ r.to_onehot, row.length = maxFieldLength) ∧
    (parse_line true "" [] emptyLedger).1 = .error scriptLineValidationError := by
  refine ⟨rfl, ?_, fun r => to_onehot_shape r, rfl⟩
  have h81 : maxFieldLength = 81 := by decide
  rw [h81]
  rfl

theorem zipWith_map_same {α : Type} (f : ℚ → ℚ → ℚ) (g h : α → ℚ)
    (l : List α) :
    List.zipWith f (l.map g) (l.map h) = l.map (fun x => f (g x) (h x)) := by
  induction l with
  | nil => rfl
  | cons a l ih => simp [ih]

/-- **C2** — the claim is right about the aggregation the code computes,
and a code defect prevents its delivery: for a line whose surviving word
matrices number `N > 1`, the `grammar_fingerprint` computed at parsing.py
lines 60-67 is their element-wise arithmetic mean — the left-to-right
accumulated sum (`matSum`) divided element-wise by `N` (`matDiv`) — and
in particular aggregating a one-word noun matrix and a one-word verb
matrix yields a pos1 row with exactly `1/2` at the noun's canonical
index, `1/2` at the verb's distinct canonical index, and zero elsewhere;
but every tolerant `parse_line` call then raises pydantic's
`ValidationError` constructing `ScriptLine`, so in the source no line
ever yields its fingerprint. -/
theorem C2_mean_aggregation_vs_scriptline :
    (∀ (mode : Bool) (ws : List FugashiFeature) (d : Ledger) (ms : List Mat),
      (line_slices mode ws d).1 = .ok ms → 1 < ms.length →
      fingerprint ms = matDiv (matSum ms) ms.length) ∧
    (List.indexOf "名詞" pos1Order ≠ List.indexOf "動詞" pos1Order ∧
      (fingerprint [recNoun.to_onehot, recVerb.to_onehot]).get? 0 =
        some ((List.range maxFieldLength).map
          (fun k => if List.indexOf "名詞" pos1Order = k ∨
                       List.indexOf "動詞" pos1Order = k
                    then (1/2 : ℚ) else 0))) ∧
    (∀ (line : String) (ws : List FugashiFeature) (d : Ledger),
      (parse_line true line ws d).1 = .error scriptLineValidationError) := by
  refine ⟨?_, ?_, ?_⟩
  · intro mode ws d ms _h hlen
    rw [fingerprint, if_neg (by omega), if_neg (by omega)]
  · have hiN : "名詞" ∈ pos1Order := by
      rw [pos1Order, mem_canonicalOrder]
      decide
    have hiV : "動詞" ∈ pos1Order := by
      rw [pos1Order, mem_canonicalOrder]
      decide
    have hneq : List.indexOf "名詞" pos1Order ≠ List.indexOf "動詞" pos1Order := by
      intro h
      have h2 : ("名詞" : String) = "動詞" := (List.indexOf_inj hiN hiV).mp h
      exact absurd h2 (by decide)
    refine ⟨hneq, ?_⟩
    have hfp : fingerprint [recNoun.to_onehot, recVerb.to_onehot] =
        matDiv (matAdd recNoun.to_onehot recVerb.to_onehot) 2 := rfl
    have hrowN : padRow (fieldRow pos1Order (some "名詞")) maxFieldLength =
        indVec (List.indexOf "名詞" pos1Order) maxFieldLength := by
      rw [fieldRow, field_to_onehot_eq_indVec]
      exact padRow_indVec (List.indexOf_lt_length.mpr hiN)
        (ClassField.order_length_le .pos1)
    have hrowV : padRow (fieldRow pos1Order (some "動詞")) maxFieldLength =
        indVec (List.indexOf "動詞" pos1Order) maxFieldLength := by
      rw [fieldRow, field_to_onehot_eq_indVec]
      exact padRow_indVec (List.indexOf_lt_length.mpr hiV)
        (ClassField.order_length_le .pos1)
    have hadd : (matAdd recNoun.to_onehot recVerb.to_onehot).get? 0 =
        some (List.zipWith (· + ·)
          (padRow (fieldRow pos1Order (some "名詞")) maxFieldLength)
          (padRow (fieldRow pos1Order (some "動詞")) maxFieldLength)) := rfl
    rw [hfp, matDiv, List.get?_map, hadd, hrowN, hrowV]
    show some _ = some _
    congr 1
    rw [indVec, indVec, zipWith_map_same, List.map_map]
    apply List.map_congr_left
    intro k _
    by_cases hN : List.indexOf "名詞" pos1Order = k <;>
      by_cases hV : List.indexOf "動詞" pos1Order = k
    · exact absurd (hN.trans hV.symm) hneq
    · simp [Function.comp, hN, hV]
    · simp [Function.comp, hN, hV]
    · simp [Function.comp, hN, hV]
  · intro line ws d
    rw [parse_line_tolerant]

/-- Counterexample to **C5** as stated ("in either mode"): in strict mode
(no analysis ledger) a word whose pos1 value is unclassifiable raises
`ValueError` from `UnidicField.from_fugashi`; neither
`ScriptParser.parse_word` nor `parse_line` catches it, so the line's
processing aborts with that exception instead of dropping the word and
continuing. -/
theorem C5_counterexample :
    (parse_line false "" [wordBadPos1] emptyLedger).1 =
      .error ("Invalid value for " ++ "UnidicPos1" ++ ": " ++ "zzz") ∧
    ∀ sl : ScriptLine, (parse_line false "" [wordBadPos1] emptyLedger).1 ≠ .ok sl := by
  refine ⟨rfl, ?_⟩
  intro sl h
  rw [show (parse_line false "" [wordBadPos1] emptyLedger).1 =
      .error ("Invalid value for " ++ "UnidicPos1" ++ ": " ++ "zzz") from rfl] at h
  exact Except.noConfusion h

/-- **C5 (amended)**: in tolerant (analysis) mode, input-data errors are
contained at word granularity and never abort the word-processing of a
line: a word whose record assembly fails is excluded from the surviving
matrices while the remaining words are still processed and ledgered, and
for a 3-word line with 1 failing word the grammar fingerprint computed at
parsing.py lines 60-67 equals the aggregate of the 2 surviving word
matrices — their sum divided by 2, not 3.  (Delivery of that fingerprint
is separately blocked by the unconditional `ScriptLine` construction
defect, cf. C2/C6/C7; and in strict mode a classification error aborts
the line: see the counterexample.) -/
theorem C5_amended_word_containment (w1 w2 w3 : FugashiFeature) (d : Ledger)
    (r1 r3 : UnidicFeatures29)
    (h1 : tolerantRecord w1 = some r1)
    (h2 : tolerantRecord w2 = none)
    (h3 : tolerantRecord w3 = some r3) :
    (line_slices true [w1, w2, w3] d).1 = .ok [r1.to_onehot, r3.to_onehot] ∧
    fingerprint [r1.to_onehot, r3.to_onehot] =
      matDiv (matAdd r1.to_onehot r3.to_onehot) 2 ∧
    (line_slices true [w1, w2, w3] d).2 =
      fun n => d n ∪ lineMisses [w1, w2, w3] n := by
  have hs := line_slices_tolerant [w1, w2, w3] d
  refine ⟨?_, rfl, ?_⟩
  · rw [hs]
    simp [h1, h2, h3]
  · rw [hs]

/-- Witness for C5 (amended): the 3-word line `[wordStar, wordNoLemma,
wordNoun]` whose middle word fails record assembly. -/
theorem C5_witness :
    (line_slices true [wordStar, wordNoLemma, wordNoun] emptyLedger).1 =
      .ok [recStar.to_onehot, recWordNoun.to_onehot] ∧
    fingerprint [recStar.to_onehot, recWordNoun.to_onehot] =
      matDiv (matAdd recStar.to_onehot recWordNoun.to_onehot) 2 ∧
    (line_slices true [wordStar, wordNoLemma, wordNoun] emptyLedger).2 =
      fun n => emptyLedger n ∪ lineMisses [wordStar, wordNoLemma, wordNoun] n :=
  C5_amended_word_containment wordStar wordNoLemma wordNoun emptyLedger
    recStar recWordNoun rfl rfl rfl

/-- **C9**: ledger accumulation is order-independent.  Inserting an
unmatched raw value into a field's set is idempotent, commutative and
associative (per-field union); the word-processing stage of a tolerant
line updates the parser's ledger exactly as the per-word fold
`wordsLedger` of the tolerant constructor's updates (fugashi_wrap.py
lines 714-774, which run word by word before the line's `ScriptLine`
failure); and threading one ledger through documents — each given by its
tokenized words in reading order — in order `(1, 2, 3)` versus
`(3, 2, 1)`, or reversing any document list, or merging per-field ledgers
in either order, yields identical final per-field sets. -/
theorem C9_ledger_order_independence :
    (∀ (d : Ledger) (name raw n : String),
      mergeLedger (mergeLedger d name (some raw)) name (some raw) n =
        mergeLedger d name (some raw) n) ∧
    (∀ (d : Ledger) (n1 r1 n2 r2 n : String),
      mergeLedger (mergeLedger d n1 (some r1)) n2 (some r2) n =
        mergeLedger (mergeLedger d n2 (some r2)) n1 (some r1) n) ∧
    (∀ (a b c : Ledger) (n : String),
      ledgerUnion (ledgerUnion a b) c n = ledgerUnion a (ledgerUnion b c) n) ∧
    (∀ (a b : Ledger) (n : String), ledgerUnion a b n = ledgerUnion b a n) ∧
    (∀ (ws : List FugashiFeature) (d : Ledger) (n : String),
      (line_word_results true ws d).2 n = wordsLedger ws d n) ∧
    (∀ (docs : List (List FugashiFeature)) (d : Ledger) (n : String),
      runLedger docs.reverse d n = runLedger docs d n) ∧
    (∀ (doc1 doc2 doc3 : List FugashiFeature) (d : Ledger) (n : String),
      runLedger [doc1, doc2, doc3] d n = runLedger [doc3, doc2, doc1] d n) := by
  have hrev : ∀ (docs : List (List FugashiFeature)) (d : Ledger) (n : String),
      runLedger docs.reverse d n = runLedger docs d n := by
    intro docs d n
    rw [runLedger_apply, runLedger_apply, runMisses_reverse]
  refine ⟨?_, ?_, ?_, ?_, line_word_results_ledger, hrev, ?_⟩
  · intro d name raw n
    simp only [mergeLedger_apply, missOf, Finset.union_assoc, Finset.union_self]
  · intro d n1 r1 n2 r2 n
    simp only [mergeLedger_apply, Finset.union_assoc]
    rw [Finset.union_comm (missOf n1 (some r1) n) (missOf n2 (some r2) n)]
  · intro a b c n
    simp [ledgerUnion, Finset.union_assoc]
  · intro a b n
    simp [ledgerUnion, Finset.union_comm]
  · intro doc1 doc2 doc3 d n
    have h := hrev [doc1, doc2, doc3] d n
    simpa using h.symm

end JpParse
